import Mathlib

/-!
Verification development for the chunk-streaming core of the
Minecraft-RustVersion repository.

Embedding conventions:
- `IVec3` models `bevy::IVec3` with unbounded `ℤ` components (the source
  never approaches `i32` overflow in the modelled code paths).
- `f32` world positions, times and priority values are modelled as exact
  rationals `ℚ`.  Every `f32` square root in the source occurs only inside
  a comparison, so the embedding carries squared distances and decides each
  comparison exactly: for nonnegative `r`, `sqrt d ≤ r ↔ d ≤ r^2`, and the
  mixed comparisons `sqrt a ≤ sqrt b + c` used by the priority sorts are
  decided by `sqrtLeAdd` below (squaring twice).  All constants that the
  source compares against (0.5, 1.2, 1.5, 30, 10, 5, 3, 0.1, 1000, 2) are
  far from the rounding error of `f32` at the magnitudes involved, so the
  exact ordering agrees with the `f32` ordering on the inputs used here.
- `Vec<T>` becomes `List T`; `HashSet<IVec3>` becomes a `List IVec3` used
  with membership and duplicate-free insertion (`List.insert`); `VecDeque`
  becomes a `List` with `push_back = append` and `pop_front = head/tail`.
- Rust `sort_by` is a stable sort; `List.mergeSort` is stable, and the
  comparators below return `true` exactly when the Rust comparator returns
  `Less` or `Equal`, so both sorts produce the same list.
- `Entity` handles are modelled as `ℕ`.
- The process-wide `static Mutex` rate-limit caches of the two detection
  systems are modelled as explicit state records threaded in and out, as
  the specification's design notes prescribe.
-/

set_option maxRecDepth 80000

/-- Integer 3-vector, the chunk coordinate type (`bevy::IVec3`). -/
structure IVec3 where
  x : ℤ
  y : ℤ
  z : ℤ
deriving DecidableEq, Repr

/-- World-space position (`bevy::Vec3`), with `f32` modelled as `ℚ`. -/
structure Vec3 where
  x : ℚ
  y : ℚ
  z : ℚ
deriving DecidableEq, Repr

/-- Floor of a rational to an integer, the embedding of `f32::floor` with
`as i32` on values of integral magnitude used by the loader. -/
def floorQ (q : ℚ) : ℤ := Int.fdiv q.num (q.den : ℤ)

/-- Truncation toward zero, the embedding of `as i32` on an `f32`. -/
def truncQ (q : ℚ) : ℤ := if 0 ≤ q then floorQ q else -floorQ (-q)

/-- Inclusive integer range `a..=b` as a list, in ascending order. -/
def intRange (a b : ℤ) : List ℤ := (List.range (b + 1 - a).toNat).map (fun k : ℕ => a + (k : ℤ))

/-- Decides `sqrt a ≤ sqrt b + c` for rationals `a b ≥ 0` by squaring.
Used to compare the priority values `1000 - sqrt dist - penalty` of the
source exactly, without a square-root function. -/
def sqrtLeAdd (a b c : ℚ) : Bool :=
  if 0 ≤ c then
    decide (a - b - c ^ 2 ≤ 0) || decide ((a - b - c ^ 2) ^ 2 ≤ 4 * c ^ 2 * b)
  else
    decide (0 ≤ b - a - c ^ 2) && decide (4 * c ^ 2 * a ≤ (b - a - c ^ 2) ^ 2)

/-- Decides `sqrt sq ≤ bound` (`sq ≥ 0`): false whenever `bound < 0`,
otherwise compare the squares. Embeds `f32` comparisons of a computed
distance against a configured radius. -/
def sqLeBound (sq bound : ℚ) : Bool := decide (0 ≤ bound) && decide (sq ≤ bound ^ 2)

/-- Squared euclidean distance between two world positions. -/
def distSq (a b : Vec3) : ℚ := (a.x - b.x) ^ 2 + (a.y - b.y) ^ 2 + (a.z - b.z) ^ 2

/-- Block identifiers of `world/chunk.rs`. -/
inductive BlockId where
  | Air
  | Stone
  | Dirt
  | Grass
  | Bedrock
deriving DecidableEq, Repr

/-- The byte stored for a block (`id as u8` with the source's variant order). -/
def BlockId.code : BlockId → ℕ
  | .Air => 0
  | .Stone => 1
  | .Dirt => 2
  | .Grass => 3
  | .Bedrock => 4

/-- Decoding of a stored byte, the `match` inside `Chunk::get_block`:
bytes other than 1–4 decode to `Air`. -/
def decodeBlock (b : ℕ) : BlockId :=
  if b = 1 then .Stone
  else if b = 2 then .Dirt
  else if b = 3 then .Grass
  else if b = 4 then .Bedrock
  else .Air

/-- The chunk store record of `world/chunk.rs`: a dense byte array of
32·32·32 cells, the derived solid-block index and the dirty flag. -/
structure Chunk where
  coord : IVec3
  blocks : List ℕ
  solid_blocks : List IVec3
  dirty : Bool
deriving DecidableEq, Repr

/-- `Chunk::new`: all-air blocks, empty solid index, dirty. -/
def Chunk.new (coord : IVec3) : Chunk :=
  ⟨coord, List.replicate 32768 0, [], true⟩

/-- `Chunk::index`: x fastest, then z, then y. -/
def Chunk.index (x y z : ℕ) : ℕ := (y * 32 + z) * 32 + x

/-- `Chunk::get_block`: read the stored byte and decode it. -/
def Chunk.get_block (c : Chunk) (x y z : ℕ) : BlockId :=
  decodeBlock (c.blocks.getD (Chunk.index x y z) 0)

/-- `Chunk::set_block`: store the byte; mark dirty only when the byte
changed. It does not touch `solid_blocks`. -/
def Chunk.set_block (c : Chunk) (x y z : ℕ) (id : BlockId) : Chunk :=
  { c with
    blocks := c.blocks.set (Chunk.index x y z) id.code,
    dirty := if c.blocks.getD (Chunk.index x y z) 0 ≠ id.code then true else c.dirty }

/-- `Chunk::compute_solid_blocks`: rebuild the solid index by scanning all
local coordinates in x-outer, y-middle, z-inner order and keeping the
non-air ones. -/
def Chunk.compute_solid_blocks (c : Chunk) : Chunk :=
  { c with solid_blocks :=
      (List.range 32).flatMap fun x =>
        (List.range 32).flatMap fun y =>
          (List.range 32).filterMap fun z =>
            if c.get_block x y z ≠ BlockId.Air then some ⟨(x : ℤ), (y : ℤ), (z : ℤ)⟩ else none }

/-- `ChunkLoaderConfig` of `world/chunk_loader.rs` (fields re-read from the
game settings each tick; the embedding takes them as already-updated
inputs). -/
structure ChunkLoaderConfig where
  max_loaded_chunks : ℕ
  surface_priority_quota : ℕ
  sphere_loading_radius : ℚ
  max_chunks_per_frame : ℕ
deriving DecidableEq, Repr

/-- The `Default for ChunkLoaderConfig` values. -/
def defaultLoaderConfig : ChunkLoaderConfig := ⟨1000, 600, 12, 3⟩

/-- `ChunkLoadQueue`: pending coordinates plus the generating in-flight set. -/
structure ChunkLoadQueue where
  pending : List IVec3
  generating : List IVec3
deriving DecidableEq, Repr

/-- `ChunkUnloadQueue`: pending (entity, coordinate) pairs plus the
unloading in-flight set. -/
structure ChunkUnloadQueue where
  pending : List (ℕ × IVec3)
  unloading : List IVec3
deriving DecidableEq, Repr

/-- The process-wide statics of `chunk_demand_system` (`LAST_CHECK` and
`DEEP_UNDERGROUND_TIMER`), threaded as explicit state. -/
structure DemandState where
  lastCheck : Option (ℚ × IVec3 × Vec3)
  deepTimer : Option ℚ
deriving DecidableEq, Repr

/-- One tick's inputs to `chunk_demand_system`: config (post settings
update), the load queue, the coordinates of the currently loaded chunk
entities (the `chunk_query`), the player position, the elapsed time and
the cached static state. -/
structure DemandIn where
  cfg : ChunkLoaderConfig
  queue : ChunkLoadQueue
  loaded : List IVec3
  playerPos : Vec3
  time : ℚ
  st : DemandState
deriving DecidableEq, Repr

/-- Player chunk coordinate: componentwise `floor(pos / 32)`. -/
def chunkOf (p : Vec3) : IVec3 := ⟨floorQ (p.x / 32), floorQ (p.y / 32), floorQ (p.z / 32)⟩

/-- The player chunk position computed at the top of the demand tick. -/
def dPcp (i : DemandIn) : IVec3 := chunkOf i.playerPos

/-- Fast-movement detection of the demand tick: speed above 30 units/s
(`dist/dt > 30`, decided on squares), or a drop of more than 10 units in y
since the last sample. With no previous sample the flag is false. -/
def dFast (i : DemandIn) : Bool :=
  match i.st.lastCheck with
  | none => false
  | some (lt, _, lp) =>
    (decide (0 < i.time - lt) && decide (900 * (i.time - lt) ^ 2 < distSq i.playerPos lp))
      || decide (i.playerPos.y - lp.y < -10)

/-- Whether the player crossed into a new chunk since the last sample. -/
def dChunkMoved (i : DemandIn) : Bool :=
  match i.st.lastCheck with
  | none => false
  | some (_, lc, _) => decide (lc ≠ dPcp i)

/-- Emergency load condition: fast-moving and chunk crossed. -/
def dEmergency (i : DemandIn) : Bool := dFast i && dChunkMoved i

/-- The rate limit of the demand tick: run when more than 0.5 s elapsed,
the chunk changed, or the emergency condition holds; always run on the
first sample. -/
def dShouldUpdate (i : DemandIn) : Bool :=
  match i.st.lastCheck with
  | none => true
  | some (lt, _, _) => decide ((1 : ℚ) / 2 < i.time - lt) || dChunkMoved i || dEmergency i

/-- Fast-fall detection: the computed velocity's y component is below -5
(`(y - last_y)/dt < -5` with `dt > 0`; velocity is zero without a previous
sample or with `dt ≤ 0`). -/
def dFallingFast (i : DemandIn) : Bool :=
  match i.st.lastCheck with
  | none => false
  | some (lt, _, lp) =>
    decide (0 < i.time - lt) && decide (i.playerPos.y - lp.y < -5 * (i.time - lt))

/-- The loaded-coordinate count: the source collects the query's chunk
coordinates into a `HashSet`, so duplicates collapse. -/
def dCount (i : DemandIn) : ℕ := i.loaded.eraseDups.length

/-- Simplified near-surface test: player chunk y at or above 0. -/
def dNearSurface (i : DemandIn) : Bool := decide (0 ≤ (dPcp i).y)

/-- The 8 horizontal neighbour chunk coordinates, in the source's order
(E, W, S, N, SE, NE, SW, NW). -/
def surroundingChunks (p : IVec3) : List IVec3 :=
  [⟨p.x + 1, p.y, p.z⟩, ⟨p.x - 1, p.y, p.z⟩, ⟨p.x, p.y, p.z + 1⟩, ⟨p.x, p.y, p.z - 1⟩,
   ⟨p.x + 1, p.y, p.z + 1⟩, ⟨p.x + 1, p.y, p.z - 1⟩, ⟨p.x - 1, p.y, p.z + 1⟩, ⟨p.x - 1, p.y, p.z - 1⟩]

/-- Deep-underground test: all 8 horizontal neighbours have chunk y below 0. -/
def dAllUnderground (i : DemandIn) : Bool :=
  (surroundingChunks (dPcp i)).all (fun c => decide (c.y < 0))

/-- The updated deep-underground timer: started when the condition first
holds, kept while it holds, reset otherwise. -/
def dTimerNew (i : DemandIn) : Option ℚ :=
  if dAllUnderground i then
    match i.st.deepTimer with
    | none => some i.time
    | some s => some s
  else none

/-- Sustained deep-underground flag: the condition holds now and the timer
(started on an earlier tick) shows at least 30 s. -/
def dDeepLong (i : DemandIn) : Bool :=
  dAllUnderground i &&
    (match i.st.deepTimer with
     | none => false
     | some s => decide ((30 : ℚ) ≤ i.time - s))

/-- Conservative mode: underground and neither emergency nor fast-moving. -/
def dConservative (i : DemandIn) : Bool := !dNearSurface i && !dEmergency i && !dFast i

/-- The effective max resident count per mode (lines 238–249 of
`chunk_loader.rs`). -/
def dEffectiveMax (i : DemandIn) : ℕ :=
  if dDeepLong i then 50
  else if dConservative i then min 500 i.cfg.max_loaded_chunks
  else if dEmergency i then i.cfg.max_loaded_chunks + 200
  else if dFast i then i.cfg.max_loaded_chunks + 100
  else i.cfg.max_loaded_chunks

/-- A coordinate passes the dedup guards: neither loaded nor in the
generating in-flight set. -/
def notTracked (i : DemandIn) (c : IVec3) : Bool :=
  !(decide (c ∈ i.loaded)) && !(decide (c ∈ i.queue.generating))

/-- The critical foot chunks pushed first (in source order: the three
chunks below, then the player's own chunk). -/
def criticalFootChunks (p : IVec3) : List IVec3 :=
  [⟨p.x, p.y - 1, p.z⟩, ⟨p.x, p.y - 2, p.z⟩, ⟨p.x, p.y - 3, p.z⟩, p]

/-- The essential 12-chunk set of the deep-underground aggressive mode:
the player's chunk, the 8 horizontal neighbours and the 3 chunks below,
in source order. -/
def essentialChunks (p : IVec3) : List IVec3 :=
  p :: surroundingChunks p ++
    [⟨p.x, p.y - 1, p.z⟩, ⟨p.x, p.y - 2, p.z⟩, ⟨p.x, p.y - 3, p.z⟩]

/-- The `emergency_chunks` list of the demand tick: critical foot chunks at
priority 0, the fast-fall extension (4 to 8 chunks below) at priority 0.1,
and, under the emergency condition, a cube around the player at priority
`squared distance + 2`; sorted ascending by priority (stable). -/
def dEmergencyCands (i : DemandIn) : List (IVec3 × ℚ) :=
  let p := dPcp i
  let base := ((criticalFootChunks p).filter (notTracked i)).map (fun c => (c, (0 : ℚ)))
  let fall :=
    if dFallingFast i then
      (((intRange 4 8).map (fun k => (⟨p.x, p.y - k, p.z⟩ : IVec3))).filter (notTracked i)).map
        (fun c => (c, (1 : ℚ) / 10))
    else []
  let cube :=
    if dEmergency i then
      let r : ℤ := if dFallingFast i then 1 else 2
      (((intRange (p.x - r) (p.x + r)).flatMap fun x =>
          (intRange (p.y - 1) (p.y + 1)).flatMap fun y =>
            (intRange (p.z - r) (p.z + r)).map fun z => (⟨x, y, z⟩ : IVec3)).filter
        (notTracked i)).map
        (fun c => (c, (((c.x - p.x) ^ 2 + (c.y - p.y) ^ 2 + (c.z - p.z) ^ 2 : ℤ) : ℚ) + 2))
    else []
  (base ++ fall ++ cube).mergeSort (fun a b => decide (a.2 ≤ b.2))

/-- A surface-tier candidate: coordinate, squared horizontal distance and
absolute y distance. Its priority in the source is
`1000 - sqrt hSq - yd * 0.5`. -/
structure SCand where
  pos : IVec3
  hSq : ℚ
  yd : ℚ
deriving DecidableEq, Repr

/-- Descending priority-order comparator for surface candidates:
`a` may precede `b` iff `1000 - sqrt a.hSq - a.yd/2 ≥ 1000 - sqrt b.hSq - b.yd/2`. -/
def surfLe (a b : SCand) : Bool := sqrtLeAdd a.hSq b.hSq ((b.yd - a.yd) / 2)

/-- The surface search radius: `radius * 1.5 as i32` when fast-moving,
otherwise `radius * 1.2 as i32`. -/
def dSurfaceRadius (i : DemandIn) : ℤ :=
  if dFast i then truncQ (i.cfg.sphere_loading_radius * (15 / 10))
  else truncQ (i.cfg.sphere_loading_radius * (12 / 10))

/-- The surface-tier candidates (only when near surface): x/z within the
surface radius, y in `[pcp.y - 2, pcp.y + 8]`, horizontal distance within
`radius * 1.2`, not loaded and not generating; sorted by descending
priority (stable). -/
def dSurfaceCands (i : DemandIn) : List SCand :=
  if dNearSurface i then
    let p := dPcp i
    let sr := dSurfaceRadius i
    ((((intRange (p.x - sr) (p.x + sr)).flatMap fun x =>
          (intRange (p.z - sr) (p.z + sr)).flatMap fun z =>
            (intRange (p.y - 2) (p.y + 8)).map fun y => (⟨x, y, z⟩ : IVec3)).filter fun c =>
        sqLeBound (((c.x - p.x) ^ 2 + (c.z - p.z) ^ 2 : ℤ) : ℚ)
            (i.cfg.sphere_loading_radius * (12 / 10))
          && notTracked i c).map fun c =>
      ⟨c, (((c.x - p.x) ^ 2 + (c.z - p.z) ^ 2 : ℤ) : ℚ), |((c.y - p.y : ℤ) : ℚ)|⟩).mergeSort surfLe
  else []

/-- A volumetric-tier candidate: coordinate, squared distance and additive
penalty; its priority in the source is `1000 - sqrt dSq - pen`. -/
structure QCand where
  pos : IVec3
  dSq : ℚ
  pen : ℚ
deriving DecidableEq, Repr

/-- Descending priority-order comparator for volumetric candidates. -/
def qLe (a b : QCand) : Bool := sqrtLeAdd a.dSq b.dSq (b.pen - a.pen)

/-- The volumetric-tier candidates: the spherical neighbourhood near the
surface, the essential 12-set in sustained-deep-underground mode, and the
small slab `y ∈ [pcp.y - 1, pcp.y + 1]` within radius 2 (3 when fast)
underground; sorted by descending priority (stable). -/
def dSphereCands (i : DemandIn) : List QCand :=
  let p := dPcp i
  let base :=
    if dNearSurface i then
      let sr := if dFast i then truncQ (i.cfg.sphere_loading_radius * (12 / 10))
                else truncQ i.cfg.sphere_loading_radius
      ((((intRange (p.x - sr) (p.x + sr)).flatMap fun x =>
            (intRange (p.z - sr) (p.z + sr)).flatMap fun z =>
              (intRange (p.y - sr) (p.y + sr)).map fun y => (⟨x, y, z⟩ : IVec3)).filter fun c =>
          sqLeBound (((c.x - p.x) ^ 2 + (c.y - p.y) ^ 2 + (c.z - p.z) ^ 2 : ℤ) : ℚ)
              i.cfg.sphere_loading_radius
            && notTracked i c
            && !((dSurfaceCands i).any fun s => decide (s.pos = c))).map fun c =>
        ⟨c, (((c.x - p.x) ^ 2 + (c.y - p.y) ^ 2 + (c.z - p.z) ^ 2 : ℤ) : ℚ), 0⟩)
    else if dDeepLong i then
      ((essentialChunks p).filter (notTracked i)).map (fun c => ⟨c, 0, 0⟩)
    else
      let ur : ℤ := if dFast i then 3 else 2
      ((((intRange (p.x - ur) (p.x + ur)).flatMap fun x =>
            (intRange (p.z - ur) (p.z + ur)).flatMap fun z =>
              (intRange (p.y - 1) (p.y + 1)).map fun y => (⟨x, y, z⟩ : IVec3)).filter fun c =>
          sqLeBound (((c.x - p.x) ^ 2 + (c.y - p.y) ^ 2 + (c.z - p.z) ^ 2 : ℤ) : ℚ) ((ur : ℚ))
            && notTracked i c).map fun c =>
        ⟨c, (((c.x - p.x) ^ 2 + (c.y - p.y) ^ 2 + (c.z - p.z) ^ 2 : ℤ) : ℚ),
         if |((c.y - p.y : ℤ) : ℚ)| < 1 / 10 then 0 else |((c.y - p.y : ℤ) : ℚ)| * 3⟩)
  base.mergeSort qLe

/-- The per-tick candidate cap (lines 452–458). -/
def dMaxPerFrame (i : DemandIn) : ℕ :=
  if dEmergency i then (if dNearSurface i then 64 else 32)
  else if dFast i then (if dNearSurface i then 48 else 24)
  else if dNearSurface i then 16 else 8

/-- The remaining quota after the cap and the already-loaded count. -/
def dAvailQuota (i : DemandIn) : ℕ := dEffectiveMax i - dCount i

/-- The conditional-push loops of the assembly phase: push each candidate
not already in the accumulator, decrementing the remaining quota on each
actual push. -/
def pushUniqueCount (acc : List IVec3) : List IVec3 → ℕ → List IVec3 × ℕ
  | [], rem => (acc, rem)
  | c :: rest, rem =>
    if c ∈ acc then pushUniqueCount acc rest rem
    else pushUniqueCount (acc ++ [c]) rest (rem - 1)

/-- The assembled `chunks_to_add` list of one demand tick: up to 10
emergency chunks (only under the emergency condition, pushed without a
dedup check), then surface candidates up to the surface quota, then
volumetric candidates up to the remaining quota. -/
def dChunksToAdd (i : DemandIn) : List IVec3 :=
  let rem0 := min (dAvailQuota i) (dMaxPerFrame i)
  let em := dEmergencyCands i
  let acc1rem1 : List IVec3 × ℕ :=
    if dEmergency i then
      let n := min (min em.length 10) rem0
      ((em.take n).map (fun e => e.1), rem0 - n)
    else ([], rem0)
  let sc := dSurfaceCands i
  let squota := min i.cfg.surface_priority_quota acc1rem1.2
  let sTake := min sc.length squota
  let acc2rem2 := pushUniqueCount acc1rem1.1 ((sc.take sTake).map SCand.pos) acc1rem1.2
  let qc := dSphereCands i
  let qTake := min qc.length acc2rem2.2
  (pushUniqueCount acc2rem2.1 ((qc.take qTake).map QCand.pos) qTake).1

/-- One run of `chunk_demand_system`: rate-limited; updates the cached
sample and the deep-underground timer; backs off when the resident count
meets the effective cap; otherwise appends the assembled candidates to the
load queue. -/
def chunk_demand_system (i : DemandIn) : ChunkLoadQueue × DemandState :=
  if dShouldUpdate i then
    let st2 : DemandState := ⟨some (i.time, dPcp i, i.playerPos), dTimerNew i⟩
    if dEffectiveMax i ≤ dCount i then (i.queue, st2)
    else ({ pending := i.queue.pending ++ dChunksToAdd i, generating := i.queue.generating }, st2)
  else (i.queue, i.st)

/-- One run of `chunk_generation_system`: pop up to 16 pending coordinates,
mark each generating, and spawn a generation task for each (the returned
list). The Spatial Chunk Map is not consulted. -/
def chunk_generation_system (q : ChunkLoadQueue) : ChunkLoadQueue × List IVec3 :=
  let n := min 16 q.pending.length
  let started := q.pending.take n
  (⟨q.pending.drop n, started.foldl (fun g c => g.insert c) q.generating⟩, started)

/-- One run of `chunk_completion_system`: poll tasks in order, collecting
at most 8 finished ones (the `ready` oracle models worker-pool completion);
for each finished task insert its coordinate into the chunk storage and
remove it from the generating set, and despawn the task. Returns the new
storage, queue and outstanding tasks. -/
def chunk_completion_system (storage : List IVec3) (q : ChunkLoadQueue)
    (tasks : List IVec3) (ready : IVec3 → Bool) :
    List IVec3 × ChunkLoadQueue × List IVec3 :=
  let done := (tasks.filter ready).take 8
  (done.foldl (fun s c => s.insert c) storage,
   ⟨q.pending, done.foldl (fun g c => g.erase c) q.generating⟩,
   tasks.diff done)

/-- The process-wide statics of `chunk_unload_detection_system`. Note that
the source declares `DEEP_UNDERGROUND_TIMER` here as a separate static and
never writes to it. -/
structure UnloadState where
  lastCheck : Option (ℚ × Vec3)
  deepTimer : Option ℚ
deriving DecidableEq, Repr

/-- One tick's inputs to `chunk_unload_detection_system`: config, the
loaded chunk entities with their coordinates (the `chunk_query`), the
unload queue, player position, time and the cached static state. -/
structure UnloadIn where
  cfg : ChunkLoaderConfig
  residents : List (ℕ × IVec3)
  queue : ChunkUnloadQueue
  playerPos : Vec3
  time : ℚ
  st : UnloadState
deriving DecidableEq, Repr

/-- Player chunk position of the unload tick. -/
def uPcp (u : UnloadIn) : IVec3 := chunkOf u.playerPos

/-- Fast-movement detection of the unload tick (same formula as the demand
tick, from this system's own cached sample). -/
def uFast (u : UnloadIn) : Bool :=
  match u.st.lastCheck with
  | none => false
  | some (lt, lp) =>
    (decide (0 < u.time - lt) && decide (900 * (u.time - lt) ^ 2 < distSq u.playerPos lp))
      || decide (u.playerPos.y - lp.y < -10)

/-- The unload tick's rate limit: re-check after 1 s, or after 10 s while
fast-moving; always run on the first sample. -/
def uShouldUpdate (u : UnloadIn) : Bool :=
  match u.st.lastCheck with
  | none => true
  | some (lt, _) => decide ((if uFast u then (10 : ℚ) else 1) < u.time - lt)

/-- Per-resident eviction metrics: entity, coordinate, squared distance,
squared horizontal distance, and the surface-band flag
(`pcp.y - 2 ≤ y ≤ pcp.y + 8`). -/
structure EvItem where
  ent : ℕ
  coord : IVec3
  dSq : ℚ
  hSq : ℚ
  surf : Bool
deriving DecidableEq, Repr

/-- The metrics list built from the chunk query. -/
def uItems (u : UnloadIn) : List EvItem :=
  u.residents.map fun rc =>
    let p := uPcp u
    ⟨rc.1, rc.2,
     (((rc.2.x - p.x) ^ 2 + (rc.2.y - p.y) ^ 2 + (rc.2.z - p.z) ^ 2 : ℤ) : ℚ),
     (((rc.2.x - p.x) ^ 2 + (rc.2.z - p.z) ^ 2 : ℤ) : ℚ),
     decide (p.y - 2 ≤ rc.2.y) && decide (rc.2.y ≤ p.y + 8)⟩

/-- The resident count seen by the unload tick (a plain `Vec`, no dedup). -/
def uCount (u : UnloadIn) : ℕ := u.residents.length

/-- Underground test of the unload tick. -/
def uUnderground (u : UnloadIn) : Bool := decide ((uPcp u).y < 0)

/-- The unload tick's sustained-deep-underground flag: read from its own
`DEEP_UNDERGROUND_TIMER` static — which no code ever sets. -/
def uDeepLong (u : UnloadIn) : Bool :=
  match u.st.deepTimer with
  | none => false
  | some s => decide ((30 : ℚ) ≤ u.time - s)

/-- The unload threshold per mode (lines 743–761). -/
def uThreshold (u : UnloadIn) : ℕ :=
  if uDeepLong u then 60
  else if uUnderground u then
    (if uFast u then u.cfg.max_loaded_chunks + 200 else u.cfg.max_loaded_chunks + 100)
  else if uFast u then u.cfg.max_loaded_chunks + 150
  else u.cfg.max_loaded_chunks * 9 / 10

/-- The number of chunks to queue for eviction (lines 770–779). -/
def uTarget (u : UnloadIn) : ℕ :=
  if uFast u then max (uCount u / 200) 1
  else if u.cfg.max_loaded_chunks ≤ uCount u then uCount u - u.cfg.max_loaded_chunks * 9 / 10
  else max (uCount u / 20) 1

/-- Decides `sqrt sq > bound`: the negation of `sqLeBound`. -/
def hGtBound (sq bound : ℚ) : Bool := !sqLeBound sq bound

/-- The eviction priority comparator (`a` may precede `b`): non-surface
chunks sort before surface chunks; within surface chunks those beyond the
surface range sort first; within a class, larger distance sorts first.
`range` is `sphere_loading_radius * 1.2`.  True exactly when the source
comparator returns `Less` or `Equal`. -/
def evictLe (range : ℚ) (a b : EvItem) : Bool :=
  if a.surf ≠ b.surf then !a.surf
  else if a.surf && (hGtBound a.hSq range ≠ hGtBound b.hSq range) then hGtBound a.hSq range
  else decide (b.dSq ≤ a.dSq)

/-- The residents sorted by eviction priority (stable). -/
def uSorted (u : UnloadIn) : List EvItem :=
  (uItems u).mergeSort (evictLe (u.cfg.sphere_loading_radius * (12 / 10)))

/-- The skip test of the selection loop: in sustained-deep-underground mode
protect the essential 12-set; otherwise protect the player's chunk and a
box of radius 2 (6 when fast-moving) around it. -/
def uSkip (u : UnloadIn) (it : EvItem) : Bool :=
  let p := uPcp u
  if uDeepLong u then decide (it.coord ∈ essentialChunks p)
  else
    decide (it.coord = p) ||
      (let pr : ℤ := if uFast u then 6 else 2
       decide (|it.coord.x - p.x| ≤ pr) && decide (|it.coord.y - p.y| ≤ pr)
         && decide (|it.coord.z - p.z| ≤ pr))

/-- The selection loop over the sorted residents: stop once the target
count is queued; skip protected chunks; skip entities already in the
pending unload queue; otherwise append to the pending unload queue. -/
def selectEvict (u : UnloadIn) : List EvItem → ℕ → List (ℕ × IVec3) → List (ℕ × IVec3)
  | [], _, pend => pend
  | it :: rest, rem, pend =>
    if rem = 0 then pend
    else if uSkip u it then selectEvict u rest rem pend
    else if pend.any (fun e => decide (e.1 = it.ent)) then selectEvict u rest rem pend
    else selectEvict u rest (rem - 1) (pend ++ [(it.ent, it.coord)])

/-- One run of `chunk_unload_detection_system`: rate-limited; when the
resident count reaches the threshold, sort residents by eviction priority
and append selected (entity, coordinate) pairs to the pending unload
queue. The `unloading` in-flight set is read nowhere and the deep
underground timer is never written. -/
def chunk_unload_detection_system (u : UnloadIn) : ChunkUnloadQueue × UnloadState :=
  if uShouldUpdate u then
    let st2 : UnloadState := ⟨some (u.time, u.playerPos), u.st.deepTimer⟩
    if uThreshold u ≤ uCount u then
      ({ pending := selectEvict u (uSorted u) (uTarget u) u.queue.pending,
         unloading := u.queue.unloading }, st2)
    else (u.queue, st2)
  else (u.queue, u.st)

/-- One run of `chunk_unload_system`: pop up to 5 pending pairs, mark each
coordinate unloading, and spawn a teardown task for each (the returned
list). -/
def chunk_unload_system (q : ChunkUnloadQueue) : ChunkUnloadQueue × List (ℕ × IVec3) :=
  let n := min 5 q.pending.length
  let started := q.pending.take n
  (⟨q.pending.drop n, started.foldl (fun s ec => s.insert ec.2) q.unloading⟩, started)

/-- One run of `chunk_unload_completion_system`: for every finished
teardown task (no per-frame cap here), despawn the chunk entity, remove
the coordinate from storage and from the unloading set, and despawn the
task. -/
def chunk_unload_completion_system (storage : List IVec3) (q : ChunkUnloadQueue)
    (tasks : List (ℕ × IVec3)) (ready : ℕ × IVec3 → Bool) :
    List IVec3 × ChunkUnloadQueue × List (ℕ × IVec3) :=
  let done := tasks.filter ready
  (done.foldl (fun s tc => s.erase tc.2) storage,
   ⟨q.pending, done.foldl (fun g tc => g.erase tc.2) q.unloading⟩,
   tasks.diff done)

/-- Helper: a fresh chunk's block array has the full 32768 cells. -/
theorem chunk_new_length (v : IVec3) : (Chunk.new v).blocks.length = 32768 :=
  List.length_replicate 32768 0

/-- Helper: reading a list at an in-range index just written. -/
theorem getD_set_lt (l : List ℕ) (n a : ℕ) (h : n < l.length) :
    (l.set n a).getD n 0 = a := by
  rw [List.getD_eq_getElem _ _ (by simpa using h)]
  exact List.getElem_set_self _

/-- Helper: the flat index of in-range local coordinates is in range. -/
theorem chunk_index_lt (x y z : ℕ) (hx : x < 32) (hy : y < 32) (hz : z < 32) :
    Chunk.index x y z < 32768 := by
  unfold Chunk.index
  omega

/-- Helper: decoding the stored byte of a block id gives the id back. -/
theorem decode_code (id : BlockId) : decodeBlock id.code = id := by
  cases id <;> rfl

/-- C10: for every chunk with a full 32768-byte array, in-range local
coordinates and any of the five block ids, `get_block` immediately after
`set_block` at the same coordinate returns exactly the written id; and the
byte decoder is total, sending every byte other than 1–4 to `Air`. -/
theorem c10_block_roundtrip (c : Chunk) (x y z : ℕ) (id : BlockId)
    (hx : x < 32) (hy : y < 32) (hz : z < 32) (hlen : c.blocks.length = 32768) :
    (c.set_block x y z id).get_block x y z = id ∧
      (∀ b : ℕ, b ≠ 1 → b ≠ 2 → b ≠ 3 → b ≠ 4 → decodeBlock b = BlockId.Air) := by
  constructor
  · show decodeBlock ((c.blocks.set (Chunk.index x y z) id.code).getD (Chunk.index x y z) 0) = id
    rw [getD_set_lt _ _ _ (by rw [hlen]; exact chunk_index_lt x y z hx hy hz)]
    exact decode_code id
  · intro b h1 h2 h3 h4
    unfold decodeBlock
    simp [h1, h2, h3, h4]

/-- Witness for C10 at a concrete chunk, coordinate and id. -/
theorem c10_block_roundtrip_witness :
    ((Chunk.new ⟨0, 0, 0⟩).set_block 1 2 3 BlockId.Grass).get_block 1 2 3 = BlockId.Grass ∧
      (∀ b : ℕ, b ≠ 1 → b ≠ 2 → b ≠ 3 → b ≠ 4 → decodeBlock b = BlockId.Air) :=
  c10_block_roundtrip (Chunk.new ⟨0, 0, 0⟩) 1 2 3 BlockId.Grass (by decide) (by decide)
    (by decide) (chunk_new_length ⟨0, 0, 0⟩)

/-- C5 counterexample: on a fresh chunk, `set_block` writes a non-air block
but leaves `solid_blocks` empty — the solid index is not recomputed by the
write itself, contradicting the claim. -/
theorem c5_set_block_stale_cex :
    ((Chunk.new ⟨0, 0, 0⟩).set_block 0 0 0 BlockId.Stone).get_block 0 0 0 = BlockId.Stone ∧
      ((Chunk.new ⟨0, 0, 0⟩).set_block 0 0 0 BlockId.Stone).solid_blocks = [] := by
  constructor
  · decide
  · rfl

/-- C5 (amended): `set_block` marks the chunk dirty exactly when the stored
byte changes and leaves the solid index untouched; the separate
`compute_solid_blocks` call (performed by the generation pipeline and by
the gameplay edit paths after each write) rebuilds `solid_blocks` to hold
exactly the in-range local coordinates whose block is not `Air`. -/
theorem c5_dirty_and_solid_index (c : Chunk) (x y z : ℕ) (id : BlockId)
    (hx : x < 32) (hy : y < 32) (hz : z < 32) (hlen : c.blocks.length = 32768) :
    ((c.set_block x y z id).dirty
        = (if c.blocks.getD (Chunk.index x y z) 0 ≠ id.code then true else c.dirty))
    ∧ (c.set_block x y z id).solid_blocks = c.solid_blocks
    ∧ (∀ a b d : ℕ, a < 32 → b < 32 → d < 32 →
        ((⟨(a : ℤ), (b : ℤ), (d : ℤ)⟩ : IVec3) ∈ c.compute_solid_blocks.solid_blocks
          ↔ c.get_block a b d ≠ BlockId.Air))
    ∧ (∀ v ∈ c.compute_solid_blocks.solid_blocks,
        0 ≤ v.x ∧ v.x < 32 ∧ 0 ≤ v.y ∧ v.y < 32 ∧ 0 ≤ v.z ∧ v.z < 32) := by
  refine ⟨rfl, rfl, ?_, ?_⟩
  · intro a b d ha hb hd
    show (⟨(a : ℤ), (b : ℤ), (d : ℤ)⟩ : IVec3) ∈
        ((List.range 32).flatMap fun x0 =>
          (List.range 32).flatMap fun y0 =>
            (List.range 32).filterMap fun z0 =>
              if c.get_block x0 y0 z0 ≠ BlockId.Air then
                some ⟨(x0 : ℤ), (y0 : ℤ), (z0 : ℤ)⟩ else none)
        ↔ c.get_block a b d ≠ BlockId.Air
    simp only [List.mem_flatMap, List.mem_filterMap, List.mem_range]
    constructor
    · rintro ⟨x0, hx0, y0, hy0, z0, hz0, hsome⟩
      split at hsome
      · rename_i hne
        have h1 : (x0 : ℤ) = (a : ℤ) ∧ (y0 : ℤ) = (b : ℤ) ∧ (z0 : ℤ) = (d : ℤ) := by
          have := Option.some.inj hsome
          exact ⟨congrArg IVec3.x this, congrArg IVec3.y this, congrArg IVec3.z this⟩
        obtain ⟨e1, e2, e3⟩ := h1
        have ex : x0 = a := by exact_mod_cast e1
        have ey : y0 = b := by exact_mod_cast e2
        have ez : z0 = d := by exact_mod_cast e3
        subst ex; subst ey; subst ez
        exact hne
      · exact absurd hsome (by simp)
    · intro hne
      exact ⟨a, ha, b, hb, d, hd, by simp [hne]⟩
  · intro v hv
    revert hv
    show v ∈
        ((List.range 32).flatMap fun x0 =>
          (List.range 32).flatMap fun y0 =>
            (List.range 32).filterMap fun z0 =>
              if c.get_block x0 y0 z0 ≠ BlockId.Air then
                some ⟨(x0 : ℤ), (y0 : ℤ), (z0 : ℤ)⟩ else none) → _
    simp only [List.mem_flatMap, List.mem_filterMap, List.mem_range]
    rintro ⟨x0, hx0, y0, hy0, z0, hz0, hsome⟩
    split at hsome
    · have hev := Option.some.inj hsome
      have e1 := congrArg IVec3.x hev
      have e2 := congrArg IVec3.y hev
      have e3 := congrArg IVec3.z hev
      simp only at e1 e2 e3
      rw [← e1, ← e2, ← e3]
      refine ⟨by positivity, by exact_mod_cast hx0, by positivity, by exact_mod_cast hy0,
        by positivity, by exact_mod_cast hz0⟩
    · exact absurd hsome (by simp)

/-- Witness for C5's amended theorem at a concrete chunk and write. -/
theorem c5_dirty_and_solid_index_witness :
    (((Chunk.new ⟨0, 0, 0⟩).set_block 0 0 0 BlockId.Stone).dirty
        = (if (Chunk.new ⟨0, 0, 0⟩).blocks.getD (Chunk.index 0 0 0) 0 ≠ BlockId.Stone.code
            then true else (Chunk.new ⟨0, 0, 0⟩).dirty))
    ∧ ((Chunk.new ⟨0, 0, 0⟩).set_block 0 0 0 BlockId.Stone).solid_blocks
        = (Chunk.new ⟨0, 0, 0⟩).solid_blocks
    ∧ (∀ a b d : ℕ, a < 32 → b < 32 → d < 32 →
        ((⟨(a : ℤ), (b : ℤ), (d : ℤ)⟩ : IVec3) ∈
            (Chunk.new ⟨0, 0, 0⟩).compute_solid_blocks.solid_blocks
          ↔ (Chunk.new ⟨0, 0, 0⟩).get_block a b d ≠ BlockId.Air))
    ∧ (∀ v ∈ (Chunk.new ⟨0, 0, 0⟩).compute_solid_blocks.solid_blocks,
        0 ≤ v.x ∧ v.x < 32 ∧ 0 ≤ v.y ∧ v.y < 32 ∧ 0 ≤ v.z ∧ v.z < 32) :=
  c5_dirty_and_solid_index (Chunk.new ⟨0, 0, 0⟩) 0 0 0 BlockId.Stone (by decide) (by decide)
    (by decide) (chunk_new_length ⟨0, 0, 0⟩)

/-- C6: whenever the computed effective max resident count is at or below
the loaded-chunk count seen this tick, the demand system leaves the load
queue (pending and generating) completely unchanged. -/
theorem c6_at_cap_no_enqueue (i : DemandIn) (h : dEffectiveMax i ≤ dCount i) :
    (chunk_demand_system i).1 = i.queue := by
  unfold chunk_demand_system
  split
  · rfl
  · rfl

/-- Witness for C6: resident count exactly at a configured cap of 0 with a
stationary player enqueues nothing. -/
theorem c6_at_cap_no_enqueue_witness :
    (chunk_demand_system ⟨⟨0, 600, 12, 3⟩, ⟨[], []⟩, [], ⟨0, 0, 0⟩, 0, ⟨none, none⟩⟩).1
      = (⟨⟨0, 600, 12, 3⟩, ⟨[], []⟩, [], ⟨0, 0, 0⟩, 0, ⟨none, none⟩⟩ : DemandIn).queue :=
  c6_at_cap_no_enqueue _ (by with_unfolding_all decide)

/-- The C1 failing input: default configuration, empty world and queues,
player stationary at world position (0, -160, 0), i.e. chunk (0, -5, 0),
first demand sample (rate limit passes). -/
def c1In : DemandIn :=
  ⟨defaultLoaderConfig, ⟨[], []⟩, [], ⟨0, -160, 0⟩, 0, ⟨none, none⟩⟩

/-- C1: evaluation of the demand tick at the failing input. The tick runs
(rate limit passed), the player's chunk is (0, -5, 0), the three chunks
directly below are neither resident nor in-flight, the resident count is
far below the effective cap — yet the tick enqueues the player's own chunk
while appending none of (0,-6,0), (0,-7,0), (0,-8,0): the critical foot
chunks reach the queue only under the emergency condition, contradicting
the claim (and the source's own comments) that they are appended
unconditionally. -/
theorem c1_foot_chunks_not_enqueued :
    dShouldUpdate c1In = true
    ∧ dPcp c1In = ⟨0, -5, 0⟩
    ∧ notTracked c1In ⟨0, -6, 0⟩ = true
    ∧ notTracked c1In ⟨0, -7, 0⟩ = true
    ∧ notTracked c1In ⟨0, -8, 0⟩ = true
    ∧ dCount c1In < dEffectiveMax c1In
    ∧ (⟨0, -5, 0⟩ : IVec3) ∈ (chunk_demand_system c1In).1.pending
    ∧ (⟨0, -6, 0⟩ : IVec3) ∉ (chunk_demand_system c1In).1.pending
    ∧ (⟨0, -7, 0⟩ : IVec3) ∉ (chunk_demand_system c1In).1.pending
    ∧ (⟨0, -8, 0⟩ : IVec3) ∉ (chunk_demand_system c1In).1.pending := by
  with_unfolding_all decide

/-- Helper: membership after repeated set-insertion comes from the initial
set or the inserted list. -/
theorem mem_foldl_insert {x : IVec3} :
    ∀ (l g : List IVec3), x ∈ l.foldl (fun g c => g.insert c) g → x ∈ g ∨ x ∈ l := by
  intro l
  induction l with
  | nil => intro g h; exact Or.inl h
  | cons c rest ih =>
    intro g h
    rcases ih (g.insert c) h with h1 | h1
    · rcases List.mem_insert_iff.mp h1 with h2 | h2
      · exact Or.inr (by simp [h2])
      · exact Or.inl h2
    · exact Or.inr (List.mem_cons_of_mem _ h1)

/-- Helper: set-insertion preserves initial membership. -/
theorem mem_foldl_insert_init {x : IVec3} :
    ∀ (l g : List IVec3), x ∈ g → x ∈ l.foldl (fun g c => g.insert c) g := by
  intro l
  induction l with
  | nil => intro g h; exact h
  | cons c rest ih =>
    intro g h
    exact ih (g.insert c) (List.mem_insert_iff.mpr (Or.inr h))

/-- Helper: every inserted element is in the result of set-insertion. -/
theorem mem_foldl_insert_of_mem {x : IVec3} :
    ∀ (l g : List IVec3), x ∈ l → x ∈ l.foldl (fun g c => g.insert c) g := by
  intro l
  induction l with
  | nil => intro g h; exact absurd h (List.not_mem_nil x)
  | cons c rest ih =>
    intro g h
    rcases List.mem_cons.mp h with h1 | h1
    · exact mem_foldl_insert_init rest _ (List.mem_insert_iff.mpr (Or.inl h1))
    · exact ih _ h1

/-- Helper: repeated erasure cannot introduce an element. -/
theorem not_mem_foldl_erase_init {x : IVec3} :
    ∀ (l g : List IVec3), x ∉ g → x ∉ l.foldl (fun g c => g.erase c) g := by
  intro l
  induction l with
  | nil => intro g h; exact h
  | cons c rest ih =>
    intro g h
    exact ih (g.erase c) (fun hc => h (List.mem_of_mem_erase hc))

/-- Helper: erasing every element of a list from a duplicate-free set
removes each of them. -/
theorem not_mem_foldl_erase {x : IVec3} :
    ∀ (l g : List IVec3), g.Nodup → x ∈ l → x ∉ l.foldl (fun g c => g.erase c) g := by
  intro l
  induction l with
  | nil => intro g _ h; exact absurd h (List.not_mem_nil x)
  | cons c rest ih =>
    intro g hnd h
    rcases List.mem_cons.mp h with h1 | h1
    · subst h1
      exact not_mem_foldl_erase_init rest _ (fun hc => ((hnd.mem_erase_iff).mp hc).1 rfl)
    · exact ih (g.erase c) (hnd.erase c) h1

/-- C8 counterexample: the dispatch step takes only the load queue — it
cannot and does not consult the Spatial Chunk Map. Dispatching from a state
whose pending queue holds a coordinate that is already in the map (reachable
because demand estimation deduplicates against residents and the generating
set but not against pending itself) puts that coordinate into the in-flight
set while it is in the map, falsifying the claimed exclusivity mechanism. -/
theorem c8_dispatch_ignores_map_cex :
    (⟨3, 4, 5⟩ : IVec3) ∈ ([⟨3, 4, 5⟩] : List IVec3)
    ∧ (⟨3, 4, 5⟩ : IVec3) ∈ (chunk_generation_system ⟨[⟨3, 4, 5⟩], []⟩).1.generating := by
  decide

/-- C8 (amended): dispatch moves pending coordinates into the in-flight set
without consulting the map, so the in-flight/map exclusivity is preserved
exactly when no pending coordinate is resident; and the completion step
inserts each finished coordinate into the map and removes it from the
in-flight set in the same step. -/
theorem c8_exclusivity_amended (st2 : List IVec3) (q : ChunkLoadQueue)
    (tasks : List IVec3) (ready : IVec3 → Bool)
    (hp : ∀ c ∈ q.pending, c ∉ st2) (hg : ∀ c ∈ q.generating, c ∉ st2)
    (hnd : q.generating.Nodup) :
    (∀ c ∈ (chunk_generation_system q).1.generating, c ∉ st2)
    ∧ (∀ c ∈ (tasks.filter ready).take 8,
        c ∈ (chunk_completion_system st2 q tasks ready).1
        ∧ c ∉ (chunk_completion_system st2 q tasks ready).2.1.generating) := by
  constructor
  · intro c hc
    rcases mem_foldl_insert _ _ hc with h1 | h1
    · exact hg c h1
    · exact hp c (List.take_subset _ _ h1)
  · intro c hc
    constructor
    · exact mem_foldl_insert_of_mem _ _ hc
    · exact not_mem_foldl_erase _ _ hnd hc

/-- Witness for C8's amended theorem at a concrete state: one pending
coordinate, one generating coordinate with a finished task, empty map. -/
theorem c8_exclusivity_amended_witness :
    (∀ c ∈ (chunk_generation_system ⟨[⟨1, 1, 1⟩], [⟨2, 2, 2⟩]⟩).1.generating,
        c ∉ ([] : List IVec3))
    ∧ (∀ c ∈ (([⟨2, 2, 2⟩] : List IVec3).filter (fun _ => true)).take 8,
        c ∈ (chunk_completion_system [] ⟨[⟨1, 1, 1⟩], [⟨2, 2, 2⟩]⟩ [⟨2, 2, 2⟩] (fun _ => true)).1
        ∧ c ∉ (chunk_completion_system [] ⟨[⟨1, 1, 1⟩], [⟨2, 2, 2⟩]⟩ [⟨2, 2, 2⟩]
            (fun _ => true)).2.1.generating) :=
  c8_exclusivity_amended [] ⟨[⟨1, 1, 1⟩], [⟨2, 2, 2⟩]⟩ [⟨2, 2, 2⟩] (fun _ => true)
    (by decide) (by decide) (by decide)

/-- The C3 counterexample input: cap 10, ten resident chunks (nine near the
player, one far chunk whose teardown task is in flight: it is in the
unloading set and no longer pending), player stationary at the origin,
first detection sample. -/
def c3In : UnloadIn :=
  ⟨⟨10, 600, 12, 3⟩,
   [(1, ⟨20, 0, 20⟩), (2, ⟨0, 0, 0⟩), (3, ⟨1, 0, 0⟩), (4, ⟨2, 0, 0⟩), (5, ⟨0, 0, 1⟩),
    (6, ⟨0, 0, 2⟩), (7, ⟨1, 0, 1⟩), (8, ⟨1, 0, 2⟩), (9, ⟨2, 0, 1⟩), (10, ⟨2, 0, 2⟩)],
   ⟨[], [⟨20, 0, 20⟩]⟩, ⟨0, 0, 0⟩, 0, ⟨none, none⟩⟩

/-- C3 counterexample: the coordinate (20, 0, 20) is mid-eviction (in the
unloading in-flight set, its entity still resident until teardown
completes), yet eviction detection selects and enqueues it again — the
in-flight set is read nowhere in the selection path. -/
theorem c3_reselects_inflight_cex :
    (⟨20, 0, 20⟩ : IVec3) ∈ c3In.queue.unloading
    ∧ (1, (⟨20, 0, 20⟩ : IVec3)) ∈ (chunk_unload_detection_system c3In).1.pending := by
  with_unfolding_all decide

/-- Helper: membership of the inclusive integer range. -/
theorem mem_intRange {a b x : ℤ} : x ∈ intRange a b ↔ a ≤ x ∧ x ≤ b := by
  constructor
  · intro h
    obtain ⟨k, hk, he⟩ := List.mem_map.mp h
    rw [List.mem_range] at hk
    subst he
    omega
  · rintro ⟨h1, h2⟩
    apply List.mem_map.mpr
    refine ⟨(x - a).toNat, ?_, by omega⟩
    rw [List.mem_range]
    omega

/-- Helper: the conditional-push loop only produces elements of the
accumulator or of the pushed list. -/
theorem mem_pushUniqueCount (x : IVec3) :
    ∀ (l acc : List IVec3) (rem : ℕ), x ∈ (pushUniqueCount acc l rem).1 → x ∈ acc ∨ x ∈ l := by
  intro l
  induction l with
  | nil =>
    intro acc rem h
    exact Or.inl h
  | cons c rest ih =>
    intro acc rem h
    rw [pushUniqueCount] at h
    split at h
    · rcases ih acc rem h with h1 | h1
      · exact Or.inl h1
      · exact Or.inr (List.mem_cons_of_mem c h1)
    · rcases ih (acc ++ [c]) (rem - 1) h with h1 | h1
      · rcases List.mem_append.mp h1 with h2 | h2
        · exact Or.inl h2
        · exact Or.inr (by simpa using Or.inl (by simpa using h2))
      · exact Or.inr (List.mem_cons_of_mem c h1)

/-- Helper: every emergency-tier candidate passed the resident/in-flight
dedup guards. -/
theorem mem_emergencyCands_notTracked (i : DemandIn) (c : IVec3) (pr : ℚ)
    (h : (c, pr) ∈ dEmergencyCands i) : notTracked i c = true := by
  simp only [dEmergencyCands] at h
  rw [List.mem_mergeSort] at h
  simp only [List.mem_append] at h
  rcases h with (h | h) | h
  · simp only [List.mem_map, List.mem_filter] at h
    obtain ⟨a, ⟨-, hnt⟩, hpair⟩ := h
    have hac : a = c := congrArg Prod.fst hpair
    subst hac
    exact hnt
  · split at h
    · simp only [List.mem_map, List.mem_filter] at h
      obtain ⟨a, ⟨-, hnt⟩, hpair⟩ := h
      have hac : a = c := congrArg Prod.fst hpair
      subst hac
      exact hnt
    · exact absurd h (List.not_mem_nil _)
  · split at h
    · simp only [List.mem_map, List.mem_filter] at h
      obtain ⟨a, ⟨-, hnt⟩, hpair⟩ := h
      have hac : a = c := congrArg Prod.fst hpair
      subst hac
      exact hnt
    · exact absurd h (List.not_mem_nil _)

/-- Helper: every surface-tier candidate passed the dedup guards. -/
theorem mem_surfaceCands_notTracked (i : DemandIn) (s : SCand) (h : s ∈ dSurfaceCands i) :
    notTracked i s.pos = true := by
  simp only [dSurfaceCands] at h
  split at h
  · rw [List.mem_mergeSort] at h
    simp only [List.mem_map, List.mem_filter] at h
    obtain ⟨a, ⟨-, hcond⟩, rfl⟩ := h
    exact (by simp only [Bool.and_eq_true] at hcond; exact hcond.2)
  · exact absurd h (List.not_mem_nil _)

/-- Helper: every volumetric-tier candidate passed the dedup guards. -/
theorem mem_sphereCands_notTracked (i : DemandIn) (s : QCand) (h : s ∈ dSphereCands i) :
    notTracked i s.pos = true := by
  simp only [dSphereCands] at h
  rw [List.mem_mergeSort] at h
  split at h
  · simp only [List.mem_map, List.mem_filter] at h
    obtain ⟨a, ⟨-, hcond⟩, rfl⟩ := h
    exact (by simp only [Bool.and_eq_true] at hcond; exact hcond.1.2)
  · split at h
    · simp only [List.mem_map, List.mem_filter] at h
      obtain ⟨a, ⟨-, hnt⟩, rfl⟩ := h
      exact hnt
    · simp only [List.mem_map, List.mem_filter] at h
      obtain ⟨a, ⟨-, hcond⟩, rfl⟩ := h
      exact (by simp only [Bool.and_eq_true] at hcond; exact hcond.2)

/-- Helper: every coordinate the demand tick appends passed the
resident/in-flight dedup guards. -/
theorem mem_dChunksToAdd (i : DemandIn) (c : IVec3) (h : c ∈ dChunksToAdd i) :
    notTracked i c = true := by
  simp only [dChunksToAdd] at h
  rcases mem_pushUniqueCount c _ _ _ h with h1 | h1
  · rcases mem_pushUniqueCount c _ _ _ h1 with h2 | h2
    · split at h2
      · simp only [List.mem_map] at h2
        obtain ⟨pair, hmem, hfst⟩ := h2
        have hem : pair ∈ dEmergencyCands i := List.take_subset _ _ hmem
        have := mem_emergencyCands_notTracked i pair.1 pair.2 (by simpa using hem)
        rwa [hfst] at this
      · exact absurd h2 (List.not_mem_nil _)
    · simp only [List.mem_map] at h2
      obtain ⟨sc, hmem, hpos⟩ := h2
      have := mem_surfaceCands_notTracked i sc (List.take_subset _ _ hmem)
      rwa [hpos] at this
  · simp only [List.mem_map] at h1
    obtain ⟨qc, hmem, hpos⟩ := h1
    have := mem_sphereCands_notTracked i qc (List.take_subset _ _ hmem)
    rwa [hpos] at this

/-- Helper: every pair in the eviction selection output was already in the
pending unload queue or carries an entity no pending pair had. -/
theorem selectEvict_mem (u : UnloadIn) :
    ∀ (l : List EvItem) (rem : ℕ) (pend : List (ℕ × IVec3)) (x : ℕ × IVec3),
      x ∈ selectEvict u l rem pend → x ∈ pend ∨ ∀ e ∈ pend, e.1 ≠ x.1 := by
  intro l
  induction l with
  | nil =>
    intro rem pend x h
    exact Or.inl h
  | cons it rest ih =>
    intro rem pend x h
    rw [selectEvict] at h
    split at h
    · exact Or.inl h
    · split at h
      · exact ih _ _ _ h
      · split at h
        · exact ih _ _ _ h
        · rename_i hany
          rcases ih _ _ _ h with h1 | h1
          · rcases List.mem_append.mp h1 with h2 | h2
            · exact Or.inl h2
            · right
              intro e he hcontra
              apply hany
              have hx : x = (it.ent, it.coord) := by simpa using h2
              apply List.any_eq_true.mpr
              refine ⟨e, he, ?_⟩
              simp [hcontra, hx]
          · right
            intro e he
            exact h1 e (List.mem_append_left _ he)

/-- C9: demand estimation is idempotent under unchanged inputs — a second
run in the same tick (same time, unchanged position and stored chunk)
leaves the load queue and the cached state untouched — and no run ever
appends a coordinate that is already in the generating in-flight set. -/
theorem c9_idempotent_and_inflight (i : DemandIn) :
    (∀ lt lc lp, i.st.lastCheck = some (lt, lc, lp) → i.time = lt → lc = dPcp i →
        chunk_demand_system i = (i.queue, i.st))
    ∧ (∀ c ∈ i.queue.generating, c ∈ (chunk_demand_system i).1.pending → c ∈ i.queue.pending) := by
  constructor
  · intro lt lc lp hlast htime hlc
    have hmv : dChunkMoved i = false := by
      unfold dChunkMoved
      rw [hlast]
      simp [hlc]
    have hsu : dShouldUpdate i = false := by
      unfold dShouldUpdate
      rw [hlast]
      simp only [hmv, dEmergency, htime, sub_self, Bool.or_false, Bool.and_false]
      norm_num
    unfold chunk_demand_system
    simp [hsu]
  · intro c hc hres
    unfold chunk_demand_system at hres
    split at hres
    · split at hres
      · exact hres
      · rcases List.mem_append.mp hres with h1 | h1
        · exact h1
        · have hnt := mem_dChunksToAdd i c h1
          unfold notTracked at hnt
          simp [hc] at hnt
    · exact hres

/-- Witness input for C9: a second demand run at the same instant with the
player unmoved, with one pending and one generating coordinate. -/
def c9In : DemandIn :=
  ⟨defaultLoaderConfig, ⟨[⟨5, 5, 5⟩], [⟨7, 7, 7⟩]⟩, [], ⟨0, 0, 0⟩, 2,
   ⟨some (2, ⟨0, 0, 0⟩, ⟨0, 0, 0⟩), none⟩⟩

/-- Witness for C9 at the concrete input. -/
theorem c9_idempotent_and_inflight_witness :
    chunk_demand_system c9In = (c9In.queue, c9In.st)
    ∧ ((⟨7, 7, 7⟩ : IVec3) ∈ (chunk_demand_system c9In).1.pending →
        (⟨7, 7, 7⟩ : IVec3) ∈ c9In.queue.pending) :=
  ⟨(c9_idempotent_and_inflight c9In).1 2 ⟨0, 0, 0⟩ ⟨0, 0, 0⟩
      (by with_unfolding_all decide) (by with_unfolding_all decide) (by with_unfolding_all decide),
   (c9_idempotent_and_inflight c9In).2 ⟨7, 7, 7⟩ (by decide)⟩

/-- C3 (amended): eviction detection never adds a second pending entry for
an entity already pending, and the load pipeline never enqueues a
coordinate that is still resident (which is what keeps a mid-eviction
chunk out of the load queue until its entity is despawned); but nothing
checks the unloading in-flight set itself, so a coordinate whose teardown
task is in flight and which is no longer pending can be selected again by
eviction detection (see the counterexample). -/
theorem c3_selection_guards (u : UnloadIn) (i : DemandIn) :
    (∀ p ∈ (chunk_unload_detection_system u).1.pending,
        p ∈ u.queue.pending ∨ ∀ e ∈ u.queue.pending, e.1 ≠ p.1)
    ∧ (∀ c ∈ i.loaded, c ∈ (chunk_demand_system i).1.pending → c ∈ i.queue.pending) := by
  constructor
  · intro p hp
    unfold chunk_unload_detection_system at hp
    split at hp
    · split at hp
      · exact selectEvict_mem u _ _ _ _ hp
      · exact Or.inl hp
    · exact Or.inl hp
  · intro c hc hres
    unfold chunk_demand_system at hres
    split at hres
    · split at hres
      · exact hres
      · rcases List.mem_append.mp hres with h1 | h1
        · exact h1
        · have hnt := mem_dChunksToAdd i c h1
          unfold notTracked at hnt
          simp [hc] at hnt
    · exact hres

/-- Witness inputs for C3's amended theorem. -/
def c3uIn : UnloadIn :=
  ⟨⟨10, 600, 12, 3⟩,
   [(21, ⟨20, 0, 20⟩), (22, ⟨0, 0, 0⟩), (23, ⟨1, 0, 0⟩), (24, ⟨2, 0, 0⟩), (25, ⟨0, 0, 1⟩),
    (26, ⟨0, 0, 2⟩), (27, ⟨1, 0, 1⟩), (28, ⟨1, 0, 2⟩), (29, ⟨2, 0, 1⟩), (30, ⟨2, 0, 2⟩)],
   ⟨[], []⟩, ⟨0, 0, 0⟩, 0, ⟨none, none⟩⟩

/-- Witness input for the demand half of C3's amended theorem. -/
def c3iIn : DemandIn :=
  ⟨⟨1000, 600, 0, 3⟩, ⟨[⟨7, 7, 7⟩], []⟩, [⟨7, 7, 7⟩], ⟨0, 0, 0⟩, 0, ⟨none, none⟩⟩

/-- Witness for C3's amended theorem at the concrete inputs. -/
theorem c3_selection_guards_witness :
    ((21, (⟨20, 0, 20⟩ : IVec3)) ∈ c3uIn.queue.pending
        ∨ ∀ e ∈ c3uIn.queue.pending, e.1 ≠ 21)
    ∧ (⟨7, 7, 7⟩ : IVec3) ∈ c3iIn.queue.pending :=
  ⟨(c3_selection_guards c3uIn c3iIn).1 (21, ⟨20, 0, 20⟩) (by with_unfolding_all decide),
   (c3_selection_guards c3uIn c3iIn).2 ⟨7, 7, 7⟩ (by decide) (by with_unfolding_all decide)⟩

/-- The C4 counterexample input: previous sample at time 0, world y 16,
same chunk; current sample at time 3, world y 5 — a vertical displacement
of -11 (< -10) between samples, but a velocity of only -11/3 > -5. The
four critical foot chunks are resident so the critical tier alone is
visible in `dEmergencyCands`. -/
def c4In : DemandIn :=
  ⟨defaultLoaderConfig, ⟨[], []⟩,
   [⟨0, 0, 0⟩, ⟨0, -1, 0⟩, ⟨0, -2, 0⟩, ⟨0, -3, 0⟩],
   ⟨0, 5, 0⟩, 3, ⟨some (0, ⟨0, 0, 0⟩, ⟨0, 16, 0⟩), none⟩⟩

/-- C4 counterexample: the displacement between samples is below -10 (the
claim's trigger) and the tick runs, yet the fast-fall flag is false (the
code's trigger is velocity < -5, and -11/3 is not) and the critical tier
does not extend: chunk (0,-4,0) is neither resident nor in-flight and no
extension candidate is produced at all. -/
theorem c4_displacement_trigger_cex :
    c4In.st.lastCheck = some (0, ⟨0, 0, 0⟩, ⟨0, 16, 0⟩)
    ∧ c4In.playerPos.y - 16 < -10
    ∧ dShouldUpdate c4In = true
    ∧ dFallingFast c4In = false
    ∧ notTracked c4In ⟨0, -4, 0⟩ = true
    ∧ dEmergencyCands c4In = [] := by
  with_unfolding_all decide

/-- C4 (amended): when the sampled vertical velocity is below -5 (that is,
`Δy < -5·Δt` over a positive sample gap — implied by `Δy < -10` whenever
the gap is at most 2 s), every chunk 4 to 8 below the player's chunk that
is neither resident nor in-flight enters the critical (emergency) tier, at
the fall-protection priority 0.1. -/
theorem c4_velocity_extends_below (i : DemandIn) (lt : ℚ) (lc : IVec3) (lp : Vec3)
    (hlast : i.st.lastCheck = some (lt, lc, lp))
    (hdt : 0 < i.time - lt)
    (hvel : i.playerPos.y - lp.y < -5 * (i.time - lt))
    (k : ℤ) (hk4 : 4 ≤ k) (hk8 : k ≤ 8)
    (hnt : notTracked i ⟨(dPcp i).x, (dPcp i).y - k, (dPcp i).z⟩ = true) :
    (⟨(dPcp i).x, (dPcp i).y - k, (dPcp i).z⟩, (1 : ℚ) / 10) ∈ dEmergencyCands i := by
  have hff : dFallingFast i = true := by
    unfold dFallingFast
    rw [hlast]
    have hvel2 : i.playerPos.y - lp.y < -(5 * (i.time - lt)) := by linarith
    simp [hdt, hvel2]
  simp only [dEmergencyCands]
  rw [List.mem_mergeSort]
  apply List.mem_append.mpr
  left
  apply List.mem_append.mpr
  right
  rw [hff]
  simp only [if_pos]
  apply List.mem_map.mpr
  refine ⟨⟨(dPcp i).x, (dPcp i).y - k, (dPcp i).z⟩, ?_, rfl⟩
  apply List.mem_filter.mpr
  refine ⟨?_, hnt⟩
  apply List.mem_map.mpr
  refine ⟨k, ?_, rfl⟩
  exact mem_intRange.mpr ⟨hk4, hk8⟩

/-- Witness input for C4's amended theorem: falling from world y 0 to -6 in
one second (velocity -6 < -5). -/
def c4wIn : DemandIn :=
  ⟨defaultLoaderConfig, ⟨[], []⟩, [], ⟨0, -6, 0⟩, 1,
   ⟨some (0, ⟨0, -1, 0⟩, ⟨0, 0, 0⟩), none⟩⟩

/-- Witness for C4's amended theorem at the concrete input (the player
chunk is (0,-1,0); the chunk 4 below is (0,-5,0)). -/
theorem c4_velocity_extends_below_witness :
    ((⟨0, -5, 0⟩ : IVec3), (1 : ℚ) / 10) ∈ dEmergencyCands c4wIn := by
  have hp : dPcp c4wIn = ⟨0, -1, 0⟩ := by with_unfolding_all decide
  have h := c4_velocity_extends_below c4wIn 0 ⟨0, -1, 0⟩ ⟨0, 0, 0⟩
    (by with_unfolding_all decide) (by with_unfolding_all decide) (by with_unfolding_all decide)
    4 (by norm_num) (by norm_num) (by with_unfolding_all decide)
  rw [hp] at h
  norm_num at h
  exact h

/-- C2: under a sustained (≥ 30 s) all-neighbours-underground condition the
demand estimator's effective cap does collapse to the aggressive constant
50 — but the eviction detection system keeps its own separate
`DEEP_UNDERGROUND_TIMER` static, never writes to it (its only reachable
value is `none`, as the passthrough conjunct shows), and therefore never
classifies with the aggressive threshold 60 and never protects the
essential 12-chunk set: its threshold is always the normal-mode formula
and its protection is always the radius box. -/
theorem c2_aggressive_eviction_dead (i : DemandIn) (u : UnloadIn) (s : ℚ)
    (hall : dAllUnderground i = true) (htimer : i.st.deepTimer = some s)
    (h30 : (30 : ℚ) ≤ i.time - s) (hu : u.st.deepTimer = none) :
    dEffectiveMax i = 50
    ∧ uDeepLong u = false
    ∧ (chunk_unload_detection_system u).2.deepTimer = u.st.deepTimer
    ∧ uThreshold u = (if uUnderground u then
        (if uFast u then u.cfg.max_loaded_chunks + 200 else u.cfg.max_loaded_chunks + 100)
      else if uFast u then u.cfg.max_loaded_chunks + 150
      else u.cfg.max_loaded_chunks * 9 / 10)
    ∧ (∀ it : EvItem, uSkip u it =
        (decide (it.coord = uPcp u) ||
          (decide (|it.coord.x - (uPcp u).x| ≤ (if uFast u then (6 : ℤ) else 2)) &&
           decide (|it.coord.y - (uPcp u).y| ≤ (if uFast u then (6 : ℤ) else 2)) &&
           decide (|it.coord.z - (uPcp u).z| ≤ (if uFast u then (6 : ℤ) else 2))))) := by
  have hdl : dDeepLong i = true := by
    unfold dDeepLong
    rw [htimer]
    simp [hall, h30]
  have hudl : uDeepLong u = false := by
    unfold uDeepLong
    rw [hu]
  refine ⟨?_, hudl, ?_, ?_, ?_⟩
  · unfold dEffectiveMax
    simp [hdl]
  · unfold chunk_unload_detection_system
    split
    · split
      · rfl
      · rfl
    · rfl
  · unfold uThreshold
    simp [hudl]
  · intro it
    unfold uSkip
    simp [hudl]

/-- Witness inputs for C2: demand side 31 s into an all-underground stay;
unload side with its never-written timer. -/
def c2iIn : DemandIn :=
  ⟨defaultLoaderConfig, ⟨[], []⟩, [], ⟨0, -160, 0⟩, 31, ⟨none, some 0⟩⟩

/-- Witness input for the eviction side of C2. -/
def c2uIn : UnloadIn :=
  ⟨defaultLoaderConfig, [], ⟨[], []⟩, ⟨0, -160, 0⟩, 31, ⟨some (0, ⟨0, -160, 0⟩), none⟩⟩

/-- Witness for C2 at the concrete inputs. -/
theorem c2_aggressive_eviction_dead_witness :
    dEffectiveMax c2iIn = 50
    ∧ uDeepLong c2uIn = false
    ∧ (chunk_unload_detection_system c2uIn).2.deepTimer = c2uIn.st.deepTimer
    ∧ uThreshold c2uIn = (if uUnderground c2uIn then
        (if uFast c2uIn then c2uIn.cfg.max_loaded_chunks + 200
         else c2uIn.cfg.max_loaded_chunks + 100)
      else if uFast c2uIn then c2uIn.cfg.max_loaded_chunks + 150
      else c2uIn.cfg.max_loaded_chunks * 9 / 10)
    ∧ (∀ it : EvItem, uSkip c2uIn it =
        (decide (it.coord = uPcp c2uIn) ||
          (decide (|it.coord.x - (uPcp c2uIn).x| ≤ (if uFast c2uIn then (6 : ℤ) else 2)) &&
           decide (|it.coord.y - (uPcp c2uIn).y| ≤ (if uFast c2uIn then (6 : ℤ) else 2)) &&
           decide (|it.coord.z - (uPcp c2uIn).z| ≤ (if uFast c2uIn then (6 : ℤ) else 2))))) :=
  c2_aggressive_eviction_dead c2iIn c2uIn 0 (by with_unfolding_all decide)
    (by with_unfolding_all decide) (by with_unfolding_all decide) (by with_unfolding_all decide)

/-- Rank of an eviction item under the comparator: non-surface 0 (evicts
first), out-of-range surface 2, in-range surface 3; within equal rank the
comparator orders by descending distance. -/
def evictRank (range : ℚ) (it : EvItem) : ℕ :=
  if it.surf then (if hGtBound it.hSq range then 2 else 3) else 0

/-- Helper: the eviction comparator is the lexicographic order on
(rank, descending squared distance). -/
theorem evictLe_iff (range : ℚ) (a b : EvItem) :
    evictLe range a b = true ↔
      (evictRank range a < evictRank range b
        ∨ (evictRank range a = evictRank range b ∧ b.dSq ≤ a.dSq)) := by
  unfold evictLe evictRank
  cases ha : a.surf <;> cases hb : b.surf <;>
    cases hga : hGtBound a.hSq range <;> cases hgb : hGtBound b.hSq range <;>
      simp [ha, hb, hga, hgb]

/-- Helper: the eviction comparator is transitive. -/
theorem evictLe_trans (range : ℚ) (a b c : EvItem)
    (h1 : evictLe range a b = true) (h2 : evictLe range b c = true) :
    evictLe range a c = true := by
  rw [evictLe_iff] at h1 h2 ⊢
  rcases h1 with h1 | ⟨h1, h1d⟩ <;> rcases h2 with h2 | ⟨h2, h2d⟩
  · exact Or.inl (lt_trans h1 h2)
  · exact Or.inl (by omega)
  · exact Or.inl (by omega)
  · exact Or.inr ⟨by omega, le_trans h2d h1d⟩

/-- Helper: the eviction comparator is total. -/
theorem evictLe_total (range : ℚ) (a b : EvItem) :
    (evictLe range a b || evictLe range b a) = true := by
  rw [Bool.or_eq_true, evictLe_iff, evictLe_iff]
  rcases lt_trichotomy (evictRank range a) (evictRank range b) with h | h | h
  · exact Or.inl (Or.inl h)
  · rcases le_total b.dSq a.dSq with hd | hd
    · exact Or.inl (Or.inr ⟨h, hd⟩)
    · exact Or.inr (Or.inr ⟨h.symm, hd⟩)
  · exact Or.inr (Or.inl h)

/-- Helper: when the pending unload queue shares no entity with the
scanned items and the items carry pairwise-distinct entities, the
selection loop appends exactly the first `rem` unprotected items in scan
order. -/
theorem selectEvict_eq (u : UnloadIn) :
    ∀ (l : List EvItem) (rem : ℕ) (pend : List (ℕ × IVec3)),
      (∀ it ∈ l, ∀ e ∈ pend, e.1 ≠ it.ent) →
      l.Pairwise (fun a b => a.ent ≠ b.ent) →
      selectEvict u l rem pend
        = pend ++ ((l.filter (fun it => !uSkip u it)).take rem).map
            (fun it => (it.ent, it.coord)) := by
  intro l
  induction l with
  | nil =>
    intro rem pend hpre hpw
    simp [selectEvict]
  | cons it rest ih =>
    intro rem pend hpre hpw
    rw [selectEvict]
    by_cases hrem : rem = 0
    · subst hrem
      simp
    · rw [if_neg hrem]
      by_cases hskip : uSkip u it = true
      · rw [if_pos hskip]
        rw [ih rem pend (fun it2 h2 => hpre it2 (List.mem_cons_of_mem _ h2)) hpw.of_cons]
        rw [List.filter_cons_of_neg (by simp [hskip])]
      · rw [if_neg hskip]
        have hany : ¬ (pend.any fun e => decide (e.1 = it.ent)) = true := by
          rw [List.any_eq_true]
          rintro ⟨e, he, hdec⟩
          exact hpre it (List.mem_cons_self it rest) e he (by simpa using hdec)
        rw [if_neg hany]
        obtain ⟨rem2, rfl⟩ := Nat.exists_eq_succ_of_ne_zero hrem
        have hpre2 : ∀ it2 ∈ rest, ∀ e ∈ pend ++ [(it.ent, it.coord)], e.1 ≠ it2.ent := by
          intro it2 h2 e he
          rcases List.mem_append.mp he with he1 | he1
          · exact hpre it2 (List.mem_cons_of_mem _ h2) e he1
          · have he2 : e = (it.ent, it.coord) := by simpa using he1
            subst he2
            exact (List.pairwise_cons.mp hpw).1 it2 h2
        simp only [Nat.succ_sub_one]
        rw [ih rem2 (pend ++ [(it.ent, it.coord)]) hpre2 hpw.of_cons]
        rw [List.filter_cons_of_pos (by simp [hskip])]
        rw [List.take_succ_cons, List.map_cons, List.append_assoc]
        rfl

/-- C7: with the tick running, the player stationary (not fast-moving) on
the surface, no aggressive mode, resident count at 150% of the configured
cap, an empty pending unload queue, distinct resident entities and enough
unprotected candidates, eviction detection queues exactly the first
`target` unprotected residents in eviction-priority order — enough to
bring the resident count down to 90% of the cap — never selecting the
player's chunk, and the queued prefix is sorted by the priority order
(non-surface first, then out-of-range surface, then by descending
distance). -/
theorem c7_eviction_selection (u : UnloadIn)
    (hup : uShouldUpdate u = true) (hf : uFast u = false) (hdl : uDeepLong u = false)
    (hsurf : 0 ≤ (uPcp u).y)
    (h150 : 2 * uCount u = 3 * u.cfg.max_loaded_chunks)
    (hpend : u.queue.pending = [])
    (hnd : (uItems u).Pairwise (fun a b => a.ent ≠ b.ent))
    (hen : uTarget u ≤ ((uSorted u).filter (fun it => !uSkip u it)).length) :
    (chunk_unload_detection_system u).1.pending
        = (((uSorted u).filter (fun it => !uSkip u it)).take (uTarget u)).map
            (fun it => (it.ent, it.coord))
    ∧ (((uSorted u).filter (fun it => !uSkip u it)).take (uTarget u)).length = uTarget u
    ∧ uCount u - uTarget u = u.cfg.max_loaded_chunks * 9 / 10
    ∧ (∀ p ∈ (chunk_unload_detection_system u).1.pending, p.2 ≠ uPcp u)
    ∧ (((uSorted u).filter (fun it => !uSkip u it)).take (uTarget u)).Pairwise
        (fun a b => evictLe (u.cfg.sphere_loading_radius * (12 / 10)) a b = true) := by
  have hug : uUnderground u = false := by
    unfold uUnderground
    simp only [decide_eq_false_iff_not, not_lt]
    exact hsurf
  have hthr : uThreshold u = u.cfg.max_loaded_chunks * 9 / 10 := by
    unfold uThreshold
    simp [hdl, hug, hf]
  have hcap : u.cfg.max_loaded_chunks ≤ uCount u := by omega
  have htar : uTarget u = uCount u - u.cfg.max_loaded_chunks * 9 / 10 := by
    unfold uTarget
    simp [hf, hcap]
  have hshould : uThreshold u ≤ uCount u := by
    rw [hthr]
    omega
  have hpw : (uSorted u).Pairwise (fun a b => a.ent ≠ b.ent) :=
    (List.Perm.pairwise_iff (fun h => h.symm)
      (List.mergeSort_perm (uItems u) _)).mpr hnd
  have hsel : (chunk_unload_detection_system u).1.pending
      = selectEvict u (uSorted u) (uTarget u) u.queue.pending := by
    unfold chunk_unload_detection_system
    split
    · rfl
    · rename_i hcontra
      exact absurd hup hcontra
  have hpendeq : (chunk_unload_detection_system u).1.pending
      = (((uSorted u).filter (fun it => !uSkip u it)).take (uTarget u)).map
          (fun it => (it.ent, it.coord)) := by
    rw [hsel, hpend,
      selectEvict_eq u (uSorted u) (uTarget u) []
        (fun it _ e he => absurd he (List.not_mem_nil e)) hpw,
      List.nil_append]
  refine ⟨hpendeq, ?_, ?_, ?_, ?_⟩
  · rw [List.length_take]
    exact Nat.min_eq_left hen
  · rw [htar]
    omega
  · intro p hp
    rw [hpendeq] at hp
    obtain ⟨it, hit, rfl⟩ := List.mem_map.mp hp
    have hfil := List.mem_filter.mp (List.take_subset _ _ hit)
    have hskip : uSkip u it = false := by
      have h2 := hfil.2
      simp only [Bool.not_eq_eq_eq_not, Bool.not_true] at h2
      exact h2
    unfold uSkip at hskip
    simp only [hdl, Bool.false_eq_true, if_false, Bool.or_eq_false_iff,
      decide_eq_false_iff_not] at hskip
    exact hskip.1
  · exact List.Pairwise.sublist
      ((List.take_sublist _ _).trans (List.filter_sublist _))
      (List.sorted_mergeSort (evictLe_trans _) (evictLe_total _) (uItems u))

/-- Witness input for C7: cap 10, fifteen residents (150%), a surface
column of chunks at increasing distance, stationary player at the origin
on the first detection sample. -/
def c7In : UnloadIn :=
  ⟨⟨10, 600, 12, 3⟩,
   [(1, ⟨0, 0, 0⟩), (2, ⟨3, 0, 0⟩), (3, ⟨4, 0, 0⟩), (4, ⟨5, 0, 0⟩), (5, ⟨6, 0, 0⟩),
    (6, ⟨7, 0, 0⟩), (7, ⟨8, 0, 0⟩), (8, ⟨9, 0, 0⟩), (9, ⟨10, 0, 0⟩), (10, ⟨11, 0, 0⟩),
    (11, ⟨12, 0, 0⟩), (12, ⟨13, 0, 0⟩), (13, ⟨14, 0, 0⟩), (14, ⟨15, 0, 0⟩), (15, ⟨16, 0, 0⟩)],
   ⟨[], []⟩, ⟨0, 0, 0⟩, 0, ⟨none, none⟩⟩

/-- Witness for C7 at the concrete input. -/
theorem c7_eviction_selection_witness :
    (chunk_unload_detection_system c7In).1.pending
        = (((uSorted c7In).filter (fun it => !uSkip c7In it)).take (uTarget c7In)).map
            (fun it => (it.ent, it.coord))
    ∧ (((uSorted c7In).filter (fun it => !uSkip c7In it)).take (uTarget c7In)).length
        = uTarget c7In
    ∧ uCount c7In - uTarget c7In = c7In.cfg.max_loaded_chunks * 9 / 10
    ∧ (∀ p ∈ (chunk_unload_detection_system c7In).1.pending, p.2 ≠ uPcp c7In)
    ∧ (((uSorted c7In).filter (fun it => !uSkip c7In it)).take (uTarget c7In)).Pairwise
        (fun a b => evictLe (c7In.cfg.sphere_loading_radius * (12 / 10)) a b = true) :=
  c7_eviction_selection c7In (by with_unfolding_all decide) (by with_unfolding_all decide)
    (by with_unfolding_all decide) (by with_unfolding_all decide) (by with_unfolding_all decide)
    (by with_unfolding_all decide) (by with_unfolding_all decide) (by with_unfolding_all decide)
